import Mathlib

/-!
Shallow embedding of the Detection Registry and Measurement Engine of
`backend/bar_graph_analyzer.py` (class `BarGraphAnalyzer`), together with
theorems settling the specification claims about it.

Modelling conventions:
* Python `float` pixel coordinates and calibration numbers are modelled as
  rationals; the arithmetic of `calculate_heights` is exact in the source
  formulas, so no rounding model is needed.
* Python dicts holding mutable detection dicts are modelled with an explicit
  heap: every detection dict is a cell `Det` stored at a `Nat` reference in
  `Analyzer.heap`; the category dicts and the raw `detections` list hold
  references, which reproduces the aliasing of the source (mutating a box in
  a category dict is visible through `self.detections` and vice versa).
* A Python `dict[str, ...]` is an insertion-ordered association list; key
  assignment overwrites in place, `del` removes the key.
* `float(text)` is modelled by `pyFloat?`, covering finite decimal literals
  (optional sign, digits, decimal point, exponent, surrounding whitespace);
  the claims only exercise such strings.
-/

namespace AutoExtract

/-- Decimal digit character, as produced by a Python f-string. -/
def digitChar : Nat → Char
  | 0 => '0' | 1 => '1' | 2 => '2' | 3 => '3' | 4 => '4'
  | 5 => '5' | 6 => '6' | 7 => '7' | 8 => '8' | _ => '9'

/-- Decimal digit list of a natural number, fuel-based so that it reduces
structurally; the fuel is never exhausted when it exceeds the number. -/
def natDigitsAux : Nat → Nat → List Char
  | 0, _ => []
  | fuel + 1, n =>
    if n < 10 then [digitChar n]
    else natDigitsAux fuel (n / 10) ++ [digitChar (n % 10)]

/-- Decimal digit list of a natural number (most significant first). -/
def natDigits (n : Nat) : List Char := natDigitsAux (n + 1) n

/-- Decimal representation of a natural number, as in a Python f-string. -/
def natRepr (n : Nat) : String := ⟨natDigits n⟩

/-- Value of a digit character. -/
def digitVal (c : Char) : Nat := c.toNat - 48

/-- Value of a decimal digit string. -/
def digitsToNat (l : List Char) : Nat := l.foldl (fun a c => 10 * a + digitVal c) 0

theorem digitVal_digitChar {d : Nat} (h : d < 10) : digitVal (digitChar d) = d := by
  interval_cases d <;> decide

theorem digitChar_isDigit {d : Nat} (h : d < 10) : (digitChar d).isDigit = true := by
  interval_cases d <;> decide

theorem digitsToNat_append (l : List Char) (c : Char) :
    digitsToNat (l ++ [c]) = 10 * digitsToNat l + digitVal c := by
  simp [digitsToNat, List.foldl_append]

theorem natDigitsAux_congr {n : Nat} : ∀ (f1 f2 : Nat), n < f1 → n < f2 →
    natDigitsAux f1 n = natDigitsAux f2 n := by
  induction n using Nat.strong_induction_on with
  | _ n ih =>
    intro f1 f2 h1 h2
    obtain ⟨g1, rfl⟩ : ∃ k, f1 = k + 1 := ⟨f1 - 1, by omega⟩
    obtain ⟨g2, rfl⟩ : ∃ k, f2 = k + 1 := ⟨f2 - 1, by omega⟩
    unfold natDigitsAux
    by_cases h : n < 10
    · rw [if_pos h, if_pos h]
    · rw [if_neg h, if_neg h]
      have hd : n / 10 < n := Nat.div_lt_self (by omega) (by omega)
      rw [ih (n / 10) hd g1 g2 (by omega) (by omega)]

/-- The defining recursion of `natDigits`. -/
theorem natDigits_eq (n : Nat) :
    natDigits n = if n < 10 then [digitChar n]
      else natDigits (n / 10) ++ [digitChar (n % 10)] := by
  show natDigitsAux (n + 1) n = _
  unfold natDigitsAux
  by_cases h : n < 10
  · rw [if_pos h, if_pos h]
  · rw [if_neg h, if_neg h]
    have hd : n / 10 < n := Nat.div_lt_self (by omega) (by omega)
    rw [natDigitsAux_congr n (n / 10 + 1) (by omega) (Nat.lt_succ_self _)]
    rfl

theorem natDigits_ne_nil (n : Nat) : natDigits n ≠ [] := by
  rw [natDigits_eq]
  split <;> simp

theorem natDigits_all_digit (n : Nat) : ∀ c ∈ natDigits n, c.isDigit = true := by
  induction n using Nat.strong_induction_on with
  | _ n ih =>
    rw [natDigits_eq]
    split
    · next h => intro c hc; simp at hc; subst hc; exact digitChar_isDigit h
    · next h =>
      intro c hc
      simp only [List.mem_append, List.mem_singleton] at hc
      rcases hc with hc | hc
      · exact ih (n / 10) (Nat.div_lt_self (by omega) (by omega)) c hc
      · subst hc; exact digitChar_isDigit (Nat.mod_lt _ (by omega))

theorem digitsToNat_natDigits (n : Nat) : digitsToNat (natDigits n) = n := by
  induction n using Nat.strong_induction_on with
  | _ n ih =>
    rw [natDigits_eq]
    split
    · next h => simp [digitsToNat, digitVal_digitChar h]
    · next h =>
      rw [digitsToNat_append, ih (n / 10) (Nat.div_lt_self (by omega) (by omega)),
        digitVal_digitChar (Nat.mod_lt _ (by omega))]
      omega

theorem natDigits_injective : Function.Injective natDigits := by
  intro a b h
  have := digitsToNat_natDigits a
  rw [h, digitsToNat_natDigits] at this
  omega

theorem natRepr_injective : Function.Injective natRepr := by
  intro a b h
  have hd : (natRepr a).data = (natRepr b).data := by rw [h]
  exact natDigits_injective hd

/-- Split a character list at its last underscore, as Python rsplit with
separator underscore and maxsplit 1 does; `none` when no underscore occurs. -/
def splitLastUnd : List Char → Option (List Char × List Char)
  | [] => none
  | c :: cs =>
    match splitLastUnd cs with
    | some (p, s) => some (c :: p, s)
    | none => if c = '_' then some ([], cs) else none

theorem splitLastUnd_eq_none {l : List Char} (h : ∀ c ∈ l, c ≠ '_') :
    splitLastUnd l = none := by
  induction l with
  | nil => rfl
  | cons c cs ih =>
    rw [splitLastUnd, ih (fun x hx => h x (by simp [hx]))]
    simp [h c (by simp)]

theorem splitLastUnd_append {p r : List Char} (h : ∀ c ∈ r, c ≠ '_') :
    splitLastUnd (p ++ '_' :: r) = some (p, r) := by
  induction p with
  | nil => rw [List.nil_append, splitLastUnd, splitLastUnd_eq_none h]; simp
  | cons c cs ih => rw [List.cons_append, splitLastUnd, ih]

/-- Whitespace characters stripped by Python `str.strip()` and tolerated by
`float()`. -/
def isPySpace (c : Char) : Bool :=
  c = ' ' || c = '\t' || c = '\n' || c = '\x0d' || c = '\x0b' || c = '\x0c'

/-- Python `str.strip()`. -/
def pyStrip (s : String) : String :=
  ⟨((s.data.dropWhile isPySpace).reverse.dropWhile isPySpace).reverse⟩

/-- Parse an unsigned decimal mantissa `digits[.digits]` or `.digits`,
returning its value and the remaining characters; `none` when no digit is
present. -/
def parseMantissa (l : List Char) : Option (ℚ × List Char) :=
  let ip := l.takeWhile Char.isDigit
  let rest := l.dropWhile Char.isDigit
  match rest with
  | '.' :: rest2 =>
    let fp := rest2.takeWhile Char.isDigit
    let rest3 := rest2.dropWhile Char.isDigit
    if ip.isEmpty && fp.isEmpty then none
    else some ((digitsToNat ip : ℚ) + (digitsToNat fp : ℚ) / (10 : ℚ) ^ fp.length, rest3)
  | _ =>
    if ip.isEmpty then none
    else some ((digitsToNat ip : ℚ), rest)

/-- Parse an optional sign, returning the sign factor and the rest. -/
def parseSign : List Char → ℚ × List Char
  | '-' :: rest => (-1, rest)
  | '+' :: rest => (1, rest)
  | l => (1, l)

/-- Parse an optional exponent part `e[sign]digits`; fails on a dangling
exponent marker. -/
def parseExp : List Char → Option (ℚ × List Char)
  | [] => some (1, [])
  | 'e' :: rest => parseExpAfterMarker rest
  | 'E' :: rest => parseExpAfterMarker rest
  | l => some (1, l)
where
  parseExpAfterMarker (rest : List Char) : Option (ℚ × List Char) :=
    let (s, rest2) := parseSign rest
    let ds := rest2.takeWhile Char.isDigit
    let rest3 := rest2.dropWhile Char.isDigit
    if ds.isEmpty then none
    else some ((10 : ℚ) ^ ((if s < 0 then -1 else 1) * (digitsToNat ds : ℤ)), rest3)

/-- Model of Python `float(text)` on finite decimal literals: optional
surrounding whitespace, optional sign, decimal mantissa, optional exponent.
Returns `none` where `float()` raises `ValueError`. -/
def pyFloat? (s : String) : Option ℚ :=
  let l := (pyStrip s).data
  let (sgn, l1) := parseSign l
  match parseMantissa l1 with
  | none => none
  | some (m, l2) =>
    match parseExp l2 with
    | none => none
    | some (e, l3) => if l3.isEmpty then some (sgn * m * e) else none

/-- A Python value that is either a number or a string, the type of
`origin_value` and `ymax_value` (annotated `float | str` in the source). -/
inductive PyVal where
  | num (q : ℚ)
  | str (s : String)
  deriving DecidableEq, Repr

/-- Python truthiness for the values a calibration field can hold. -/
def pyTruthy : PyVal → Bool
  | .num q => q ≠ 0
  | .str s => s ≠ ""

/-- Python `float(v)` for a calibration value: identity on numbers, string
parse on strings. -/
def floatOfPyVal : PyVal → Option ℚ
  | .num q => some q
  | .str s => pyFloat? s

/-- A detection dict: pixel box, optional confidence and class index,
category label, and the mutable bookkeeping fields `id` and
`original_index` added by the registry. -/
structure Det where
  x1 : ℚ
  y1 : ℚ
  x2 : ℚ
  y2 : ℚ
  conf : Option ℚ := none
  clsIdx : Option Int := none
  label : String
  id : Option String := none
  original_index : Option Nat := none
  deriving DecidableEq, Repr

/-- Placeholder detection returned by out-of-range heap reads (never hit on
states built by the operations). -/
def defaultDet : Det := { x1 := 0, y1 := 0, x2 := 0, y2 := 0, label := "" }

/-- Read the detection cell at reference `r`. -/
def hget (h : List Det) (r : Nat) : Det := h.getD r defaultDet

/-- The fixed category set, in the order of the `detection_lists` dict and of
`_category_dicts`. -/
def catList : List String :=
  ["bar", "uptail", "yaxis", "xaxis", "origin", "ymax",
   "label", "x_group", "legend", "legend_group"]

/-- The categories sorted by `x1` at ingestion time. -/
def sortedCats : List String := ["bar", "uptail", "x_group"]

/-- The id generated for rank `n` of category `c`, as the f-string
`"<category>_<rank>"`. -/
def idStr (c : String) (n : Nat) : String := c ++ "_" ++ natRepr n

/-- The analyzer state: the heap of detection dicts, the raw detections list
(as references), the ten category dicts (id-keyed, insertion ordered, holding
references), the calibration values and the label texts. -/
structure Analyzer where
  heap : List Det
  detections : List Nat
  origin_value : PyVal
  ymax_value : PyVal
  x_label_texts : List String
  label_text : String
  bars : List (String × Nat)
  uptails : List (String × Nat)
  yaxis : List (String × Nat)
  xaxis : List (String × Nat)
  origins : List (String × Nat)
  ymaxes : List (String × Nat)
  labels : List (String × Nat)
  x_groups : List (String × Nat)
  legends : List (String × Nat)
  legend_groups : List (String × Nat)
  deriving DecidableEq, Repr

/-- The analyzer state right after `__init__`. -/
def initAnalyzer : Analyzer :=
  { heap := [], detections := [], origin_value := .num 0, ymax_value := .num 0,
    x_label_texts := [], label_text := "", bars := [], uptails := [], yaxis := [],
    xaxis := [], origins := [], ymaxes := [], labels := [], x_groups := [],
    legends := [], legend_groups := [] }

/-- The category dict for a category name (the attribute the if-chains of the
source select). -/
def getBucket (a : Analyzer) (c : String) : List (String × Nat) :=
  if c = "bar" then a.bars
  else if c = "uptail" then a.uptails
  else if c = "yaxis" then a.yaxis
  else if c = "xaxis" then a.xaxis
  else if c = "origin" then a.origins
  else if c = "ymax" then a.ymaxes
  else if c = "label" then a.labels
  else if c = "x_group" then a.x_groups
  else if c = "legend" then a.legends
  else if c = "legend_group" then a.legend_groups
  else []

/-- Replace the category dict for a category name; identity outside the fixed
category set. -/
def setBucket (a : Analyzer) (c : String) (b : List (String × Nat)) : Analyzer :=
  if c = "bar" then { a with bars := b }
  else if c = "uptail" then { a with uptails := b }
  else if c = "yaxis" then { a with yaxis := b }
  else if c = "xaxis" then { a with xaxis := b }
  else if c = "origin" then { a with origins := b }
  else if c = "ymax" then { a with ymaxes := b }
  else if c = "label" then { a with labels := b }
  else if c = "x_group" then { a with x_groups := b }
  else if c = "legend" then { a with legends := b }
  else if c = "legend_group" then { a with legend_groups := b }
  else a

/-- Python `key in dict`. -/
def dcontains (l : List (String × Nat)) (k : String) : Bool :=
  l.any (fun p => p.1 = k)

/-- Python `dict[key]` lookup. -/
def dlookup (l : List (String × Nat)) (k : String) : Option Nat :=
  (l.find? (fun p => p.1 = k)).map Prod.snd

/-- Python `dict[key] = v`: overwrite in place when the key exists, append
otherwise. -/
def dinsert (l : List (String × Nat)) (k : String) (v : Nat) : List (String × Nat) :=
  if dcontains l k then l.map (fun p => if p.1 = k then (k, v) else p)
  else l ++ [(k, v)]

/-- Python `del dict[key]`. -/
def ddel (l : List (String × Nat)) (k : String) : List (String × Nat) :=
  l.filter (fun p => ¬ p.1 = k)

/-- The first category dict containing `box_id`, searched in
`_category_dicts` order, with the matched reference (the loop over
`self._category_dicts` with the identity chain recovering the category
name). -/
def findRefCat (a : Analyzer) (box_id : String) : Option (String × Nat) :=
  catList.findSome? (fun c => (dlookup (getBucket a c) box_id).map (fun r => (c, r)))

/-- `get_box_by_id`. -/
def get_box_by_id (a : Analyzer) (box_id : String) : Option Det :=
  (findRefCat a box_id).map (fun p => hget a.heap p.2)

/-- `get_all_boxes`: snapshot of category name to category dict. -/
def get_all_boxes (a : Analyzer) : List (String × List (String × Nat)) :=
  [("bars", a.bars), ("uptails", a.uptails), ("yaxis", a.yaxis), ("xaxis", a.xaxis),
   ("origins", a.origins), ("ymaxes", a.ymaxes), ("labels", a.labels),
   ("x_groups", a.x_groups), ("legends", a.legends), ("legend_groups", a.legend_groups)]

/-- `update_box_coordinates`: raises `ValueError` on `x1 ≥ x2 ∨ y1 ≥ y2`
(the `Except.error` case), returns `false` when the id is in no category
dict, and otherwise overwrites the four coordinate keys of the detection
dict in place. -/
def update_box_coordinates (a : Analyzer) (box_id : String) (x1 y1 x2 y2 : ℚ) :
    Analyzer × Except String Bool :=
  if x1 ≥ x2 ∨ y1 ≥ y2 then
    (a, .error "Invalid coordinates: x1 must be < x2 and y1 must be < y2")
  else
    match findRefCat a box_id with
    | some (_, r) =>
      ({ a with heap :=
          a.heap.set r { hget a.heap r with x1 := x1, y1 := y1, x2 := x2, y2 := y2 } },
        .ok true)
    | none => (a, .ok false)

/-- Model of Python `int(text)` restricted to unsigned digit strings; the ids
generated by the registry always have digit suffixes, and on any other suffix
both the source and the model end in the not-found path of
`change_box_category`. -/
def pyIntDigits? (s : String) : Option Nat :=
  if s.data ≠ [] ∧ ∀ c ∈ s.data, c.isDigit then some (digitsToNat s.data) else none

/-- The fallback search of `change_box_category`: split the id at its last
underscore, parse the suffix as an integer `k`, and find the first raw
detection whose `original_index` equals `k - 1`, returning its current label
and reference. -/
def fallbackRef (a : Analyzer) (box_id : String) : Option (String × Nat) :=
  match splitLastUnd box_id.data with
  | none => none
  | some (_, suf) =>
    match pyIntDigits? ⟨suf⟩ with
    | none => none
    | some k =>
      match a.detections.find?
          (fun r => decide (((hget a.heap r).original_index).map (fun n => (n : Int))
            = some ((k : Int) - 1))) with
      | none => none
      | some r => some ((hget a.heap r).label, r)

/-- Tail of `change_box_category` after the removal step: set the label key
of the detection dict to `new_category`, then add the dict to the new
category under the unchanged id — the add chain has no else branch, so an
unrecognized `new_category` inserts into no dict and still returns `true`. -/
def finishChange (a : Analyzer) (box_id new_category : String) (r : Nat) :
    Analyzer × Bool :=
  let a2 := { a with heap := a.heap.set r { hget a.heap r with label := new_category } }
  if new_category ∈ catList then
    (setBucket a2 new_category (dinsert (getBucket a2 new_category) box_id r), true)
  else (a2, true)

/-- `change_box_category`: find the box by id in `_category_dicts` order or
by the original-index fallback; remove it from the old category dict — on the
fallback path the id is a key of no dict, so the Python `del` raises
`KeyError`, which the outer `except` turns into `False` with the state
unchanged — then relabel and insert via `finishChange`. -/
def change_box_category (a : Analyzer) (box_id new_category : String) :
    Analyzer × Bool :=
  let found :=
    match findRefCat a box_id with
    | some cr => some cr
    | none => fallbackRef a box_id
  match found with
  | none => (a, false)
  | some (old_category, r) =>
    if old_category ∈ catList then
      if dcontains (getBucket a old_category) box_id then
        finishChange (setBucket a old_category (ddel (getBucket a old_category) box_id))
          box_id new_category r
      else (a, false)
    else finishChange a box_id new_category r

/-- The argument dict of `add_new_box`; `none` fields are absent keys. -/
structure NewBoxData where
  x1 : Option ℚ := none
  y1 : Option ℚ := none
  x2 : Option ℚ := none
  y2 : Option ℚ := none
  conf : Option ℚ := none
  clsIdx : Option Int := none
  label : Option String := none
  deriving DecidableEq, Repr

/-- `add_new_box`: `none` (the Python `None` sentinel) when a required field
is missing or the label is unrecognized; otherwise assigns the id
`<category>_<count+1>`, inserts the new dict into the category dict — an
existing entry under that id is overwritten in place — and appends it to the
raw detections list. -/
def add_new_box (a : Analyzer) (d : NewBoxData) : Analyzer × Option String :=
  if d.x1 = none ∨ d.y1 = none ∨ d.x2 = none ∨ d.y2 = none ∨ d.label = none then
    (a, none)
  else
    let lab := d.label.getD ""
    if lab ∈ catList then
      let bucket := getBucket a lab
      let new_id := idStr lab (bucket.length + 1)
      let newBox : Det :=
        { x1 := d.x1.getD 0, y1 := d.y1.getD 0, x2 := d.x2.getD 0, y2 := d.y2.getD 0,
          conf := d.conf, clsIdx := d.clsIdx, label := lab, id := some new_id,
          original_index := none }
      let r := a.heap.length
      let a1 := { a with heap := a.heap ++ [newBox], detections := a.detections ++ [r] }
      (setBucket a1 lab (dinsert (getBucket a1 lab) new_id r), some new_id)
    else (a, none)

/-- `remove_box`: delete the box from the first category dict containing its
id and drop every raw detection whose id key equals `box_id`; `false` when
the id is in no category dict. -/
def remove_box (a : Analyzer) (box_id : String) : Analyzer × Bool :=
  match findRefCat a box_id with
  | none => (a, false)
  | some (c, _) =>
    let a1 := setBucket a c (ddel (getBucket a c) box_id)
    ({ a1 with detections :=
        a1.detections.filter (fun r => ¬ (hget a1.heap r).id = some box_id) }, true)

/-- A value of `present_components`: a dict length or the marker
`manual_input`. -/
inductive PresentVal where
  | count (n : Nat)
  | manual
  deriving DecidableEq, Repr

/-- The return dict of `get_component_status`. -/
structure CompStatus where
  present_components : List (String × PresentVal)
  missing_components : List String
  all_components_ready : Bool
  deriving DecidableEq, Repr

/-- The `required_components` dict, in source order. -/
def requiredComponents (a : Analyzer) : List (String × List (String × Nat)) :=
  [("yaxis", a.yaxis), ("xaxis", a.xaxis), ("bars", a.bars),
   ("ymax", a.ymaxes), ("origin", a.origins)]

/-- The manual-input special handling for `ymax`/`origin`: when the component
is missing and the calibration value is truthy, the source calls `.strip()`
on it — an `AttributeError` (uncaught) when the value is a number — and on a
string that is nonempty after stripping tries `float()`, moving the component
to present as `manual_input` on success. -/
def manualAdjust (nm : String) (v : PyVal)
    (st : List (String × PresentVal) × List String) :
    Except String (List (String × PresentVal) × List String) :=
  if nm ∈ st.2 ∧ pyTruthy v then
    match v with
    | .num _ => .error "AttributeError: float object has no attribute strip"
    | .str s =>
      if pyStrip s ≠ "" then
        match pyFloat? s with
        | some _ => .ok (st.1 ++ [(nm, .manual)], st.2.erase nm)
        | none => .ok st
      else .ok st
  else .ok st

/-- `get_component_status`. -/
def get_component_status (a : Analyzer) : Except String CompStatus := do
  let present := (requiredComponents a).filterMap
    (fun p => if p.2.length > 0 then some (p.1, PresentVal.count p.2.length) else none)
  let missing := ((requiredComponents a).filter (fun p => ¬ p.2.length > 0)).map Prod.fst
  let st1 ← manualAdjust "ymax" a.ymax_value (present, missing)
  let st2 ← manualAdjust "origin" a.origin_value st1
  return { present_components := st2.1, missing_components := st2.2,
           all_components_ready := st2.2.isEmpty }

/-- One entry of the `calculate_heights` result dict. -/
structure HeightEntry where
  bar_heights : List ℚ
  uptail_heights : List ℚ
  bar_names : List String
  deriving DecidableEq, Repr

/-- `calculate_heights`: convert the calibration values with `float()`
(`ValueError` when unparsable), require a yaxis detection, then compute
`scale_factor = (ymax_value - origin_value) / (yaxis.y1 - yaxis.y2)` from the
first yaxis entry and map the bar and uptail dicts in order through the
height formulas; bar names are the stored x labels truncated to the bar
count when long enough, else generated `Bar i` names that are written back.
No readiness check is performed. The division by `yaxis_height` raises
`ZeroDivisionError` in Python exactly when `yaxis_height = y1 - y2` is zero,
that is exactly when `y1 = y2`; the guard below models that raise (phrased as
the equivalent `y1 = y2` so that it evaluates on literal states). -/
def calculate_heights (a : Analyzer) :
    Except String (Analyzer × (String × HeightEntry)) :=
  match floatOfPyVal a.origin_value with
  | none => .error "ValueError: could not convert origin_value to float"
  | some origin_value =>
  match floatOfPyVal a.ymax_value with
  | none => .error "ValueError: could not convert ymax_value to float"
  | some ymax_value =>
  match a.yaxis with
  | [] => .error "yaxis not set"
  | yfirst :: _ =>
    let yaxisObj := hget a.heap yfirst.2
    let yaxis_height := yaxisObj.y1 - yaxisObj.y2
    if yaxisObj.y1 = yaxisObj.y2 then
      .error "ZeroDivisionError: float division by zero"
    else
    let scale_factor := (ymax_value - origin_value) / yaxis_height
    let bar_heights := a.bars.map
      (fun p => ((hget a.heap p.2).y1 - (hget a.heap p.2).y2) * scale_factor + origin_value)
    let uptail_heights := a.uptails.map
      (fun p => ((hget a.heap p.2).y1 - (hget a.heap p.2).y2) * scale_factor)
    let num_bars := bar_heights.length
    if a.x_label_texts ≠ [] ∧ a.x_label_texts.length ≥ num_bars then
      .ok (a, (a.label_text,
        { bar_heights, uptail_heights, bar_names := a.x_label_texts.take num_bars }))
    else
      let names := (List.range num_bars).map (fun i => "Bar " ++ natRepr (i + 1))
      .ok ({ a with x_label_texts := names }, (a.label_text,
        { bar_heights, uptail_heights, bar_names := names }))

/-- The ordering used to model Python `sorted(key=lambda d: d.x1)` on the
references of one category: Python timsort is stable, and a stable sort of
references listed in increasing position order is exactly the unique
rearrangement sorted by the lexicographic order on (x1, position). -/
def sortLE (raw : List Det) (i j : Nat) : Prop :=
  (hget raw i).x1 < (hget raw j).x1 ∨ ((hget raw i).x1 = (hget raw j).x1 ∧ i ≤ j)

instance sortLE.decRel (raw : List Det) : DecidableRel (sortLE raw) := fun _ _ => by
  unfold sortLE; infer_instance

/-- The references of the detections of one category, in raw detection
order (the `detection_lists` partition). -/
def refsFor (raw : List Det) (c : String) : List Nat :=
  (List.range raw.length).filter (fun i => (hget raw i).label = c)

/-- The references of one category in ingestion rank order: sorted ascending
by `x1` for `bar`, `uptail`, `x_group`, raw order otherwise. -/
def orderedRefsFor (raw : List Det) (c : String) : List Nat :=
  if c ∈ sortedCats then List.insertionSort (sortLE raw) (refsFor raw c) else refsFor raw c

/-- Pair each reference with its 1-based rank id (the enumerate loops of
`_organize_detections`). -/
def withRanks (c : String) : List Nat → Nat → List (String × Nat)
  | [], _ => []
  | r :: rest, k => (idStr c k, r) :: withRanks c rest (k + 1)

/-- The category dict built for category `c` at ingestion. -/
def bucketFor (raw : List Det) (c : String) : List (String × Nat) :=
  withRanks c (orderedRefsFor raw c) 1

/-- The 1-based rank of raw detection `i` within its category. -/
def rankIn (raw : List Det) (i : Nat) : Nat :=
  (orderedRefsFor raw (hget raw i).label).indexOf i + 1

/-- The detection dict at position `i` after `_organize_detections`: a
recognized detection receives its `original_index` and its rank id, an
unrecognized one is left untouched (and joins no category dict). -/
def ingestDetAt (raw : List Det) (i : Nat) : Det :=
  let d := hget raw i
  if d.label ∈ catList then
    { d with original_index := some i, id := some (idStr d.label (rankIn raw i)) }
  else d

/-- Ingestion: `detect_box` stores the raw detections and
`_organize_detections` clears every category dict, partitions the detections
by label, sorts the positional categories by `x1` and assigns rank ids. All
other analyzer fields are left unchanged. -/
def ingest (raw : List Det) (a : Analyzer) : Analyzer :=
  { a with
    heap := (List.range raw.length).map (ingestDetAt raw),
    detections := List.range raw.length,
    bars := bucketFor raw "bar",
    uptails := bucketFor raw "uptail",
    yaxis := bucketFor raw "yaxis",
    xaxis := bucketFor raw "xaxis",
    origins := bucketFor raw "origin",
    ymaxes := bucketFor raw "ymax",
    labels := bucketFor raw "label",
    x_groups := bucketFor raw "x_group",
    legends := bucketFor raw "legend",
    legend_groups := bucketFor raw "legend_group" }

/-! ### Basic lemmas about ids, dicts and the heap -/

theorem string_data_append (s t : String) : (s ++ t).data = s.data ++ t.data := by
  cases s; cases t; rfl

theorem string_eq_of_data_eq {s t : String} (h : s.data = t.data) : s = t := by
  cases s; cases t; exact congrArg String.mk h

theorem idStr_data (c : String) (n : Nat) :
    (idStr c n).data = c.data ++ '_' :: natDigits n := by
  show ((c ++ "_") ++ natRepr n).data = _
  rw [string_data_append, string_data_append, List.append_assoc]
  rfl

theorem isDigit_ne_und {c : Char} (h : c.isDigit = true) : c ≠ '_' := by
  intro he; subst he; simp [Char.isDigit] at h

theorem splitLastUnd_idStr (c : String) (n : Nat) :
    splitLastUnd (idStr c n).data = some (c.data, natDigits n) := by
  rw [idStr_data]
  exact splitLastUnd_append (fun x hx => isDigit_ne_und (natDigits_all_digit n x hx))

theorem idStr_inj {c1 c2 : String} {n1 n2 : Nat} (h : idStr c1 n1 = idStr c2 n2) :
    c1 = c2 ∧ n1 = n2 := by
  have h1 := splitLastUnd_idStr c1 n1
  rw [h, splitLastUnd_idStr] at h1
  have h2 := Option.some.inj h1
  have hc : c2.data = c1.data := congrArg Prod.fst h2
  have hn : natDigits n2 = natDigits n1 := congrArg Prod.snd h2
  exact ⟨(string_eq_of_data_eq hc).symm, (natDigits_injective hn).symm⟩

theorem dlookup_cons (p : String × Nat) (l : List (String × Nat)) (k : String) :
    dlookup (p :: l) k = if p.1 = k then some p.2 else dlookup l k := by
  by_cases h : p.1 = k
  · rw [if_pos h]
    unfold dlookup
    rw [List.find?_cons_of_pos _ (by simpa using h)]
    rfl
  · rw [if_neg h]
    unfold dlookup
    rw [List.find?_cons_of_neg _ (by simpa using h)]

theorem dcontains_cons (p : String × Nat) (l : List (String × Nat)) (k : String) :
    dcontains (p :: l) k = (decide (p.1 = k) || dcontains l k) := by
  simp [dcontains]

theorem dlookup_eq_none_iff {l : List (String × Nat)} {k : String} :
    dlookup l k = none ↔ dcontains l k = false := by
  induction l with
  | nil => simp [dlookup, dcontains]
  | cons p rest ih =>
    rw [dlookup_cons, dcontains_cons]
    by_cases h : p.1 = k <;> simp [h, ih]

theorem dcontains_of_dlookup_some {l : List (String × Nat)} {k : String} {r : Nat}
    (h : dlookup l k = some r) : dcontains l k = true := by
  by_contra hc
  rw [dlookup_eq_none_iff.2 (by simpa using hc)] at h
  exact Option.noConfusion h

theorem dlookup_map_overwrite {l : List (String × Nat)} {k : String} (v : Nat)
    (hc : dcontains l k = true) :
    dlookup (l.map (fun p => if p.1 = k then (k, v) else p)) k = some v := by
  induction l with
  | nil => simp [dcontains] at hc
  | cons p rest ih =>
    rw [dcontains_cons] at hc
    by_cases h : p.1 = k
    · rw [List.map_cons, if_pos h, dlookup_cons, if_pos rfl]
    · rw [List.map_cons, if_neg h, dlookup_cons, if_neg h]
      apply ih
      simpa [h] using hc

theorem dlookup_append_single {l : List (String × Nat)} {k : String}
    (h : dlookup l k = none) (v : Nat) : dlookup (l ++ [(k, v)]) k = some v := by
  induction l with
  | nil => rw [List.nil_append, dlookup_cons, if_pos rfl]
  | cons p rest ih =>
    rw [dlookup_cons] at h
    rw [List.cons_append, dlookup_cons]
    by_cases hp : p.1 = k
    · rw [if_pos hp] at h; exact absurd h (by simp)
    · rw [if_neg hp] at h
      rw [if_neg hp]
      exact ih h

theorem dlookup_dinsert_self (l : List (String × Nat)) (k : String) (v : Nat) :
    dlookup (dinsert l k v) k = some v := by
  unfold dinsert
  split
  · next hc => exact dlookup_map_overwrite v hc
  · next hc => exact dlookup_append_single (dlookup_eq_none_iff.2 (by simpa using hc)) v

theorem ddel_cons (p : String × Nat) (l : List (String × Nat)) (k : String) :
    ddel (p :: l) k = if p.1 = k then ddel l k else p :: ddel l k := by
  by_cases h : p.1 = k <;> simp [ddel, List.filter_cons, h]

theorem dlookup_ddel_self (l : List (String × Nat)) (k : String) :
    dlookup (ddel l k) k = none := by
  induction l with
  | nil => rfl
  | cons p rest ih =>
    rw [ddel_cons]
    by_cases h : p.1 = k
    · rw [if_pos h]; exact ih
    · rw [if_neg h, dlookup_cons, if_neg h]; exact ih

theorem dcontains_ddel_self (l : List (String × Nat)) (k : String) :
    dcontains (ddel l k) k = false := by
  have := dlookup_ddel_self l k
  rwa [dlookup_eq_none_iff] at this

theorem dlookup_ddel_ne (l : List (String × Nat)) {k k' : String} (h : k' ≠ k) :
    dlookup (ddel l k) k' = dlookup l k' := by
  induction l with
  | nil => rfl
  | cons p rest ih =>
    rw [ddel_cons, dlookup_cons]
    by_cases hp : p.1 = k
    · rw [if_pos hp]
      have hp' : ¬ p.1 = k' := by rw [hp]; exact fun he => h he.symm
      rw [if_neg hp']
      exact ih
    · rw [if_neg hp, dlookup_cons]
      by_cases hp' : p.1 = k' <;> simp [hp', ih]

theorem hget_set_self {h : List Det} {r : Nat} (hr : r < h.length) (d : Det) :
    hget (h.set r d) r = d := by
  simp [hget, List.getElem?_set_self hr]

theorem hget_set_ne (h : List Det) {r r' : Nat} (hne : r' ≠ r) (d : Det) :
    hget (h.set r d) r' = hget h r' := by
  simp [hget, List.getElem?_set_ne (fun he => hne he.symm)]

theorem hget_append_length (h : List Det) (d : Det) : hget (h ++ [d]) h.length = d := by
  simp [hget, List.getElem?_concat_length]

theorem hget_append_lt {h : List Det} {r : Nat} (hr : r < h.length) (t : List Det) :
    hget (h ++ t) r = hget h r := by
  simp [hget, List.getElem?_append, hr]

theorem findSome?_eq_some_unique {α β : Type} [DecidableEq α] {L : List α}
    {f : α → Option β} {x : α} {b : β} (hmem : x ∈ L) (hx : f x = some b)
    (hun : ∀ y ∈ L, y ≠ x → f y = none) : L.findSome? f = some b := by
  induction L with
  | nil => cases hmem
  | cons y rest ih =>
    by_cases hy : y = x
    · subst hy
      rw [List.findSome?_cons_of_isSome _ (by simp [hx])]
      exact hx
    · rw [List.findSome?_cons_of_isNone _ (by simp [hun y (by simp) hy])]
      refine ih ?_ (fun z hz hzx => hun z (by simp [hz]) hzx)
      rcases List.mem_cons.1 hmem with h | h
      · exact absurd h.symm hy
      · exact h

/-! ### Bucket and search lemmas -/

theorem catList_mem_cases {c : String} (h : c ∈ catList) :
    c = "bar" ∨ c = "uptail" ∨ c = "yaxis" ∨ c = "xaxis" ∨ c = "origin" ∨ c = "ymax" ∨
    c = "label" ∨ c = "x_group" ∨ c = "legend" ∨ c = "legend_group" := by
  simpa [catList] using h

theorem getBucket_setBucket_same {c : String} (hc : c ∈ catList) (a : Analyzer)
    (b : List (String × Nat)) : getBucket (setBucket a c b) c = b := by
  rcases catList_mem_cases hc with rfl | rfl | rfl | rfl | rfl | rfl | rfl | rfl | rfl | rfl <;> rfl

theorem getBucket_setBucket_ne {c c' : String} (hc : c ∈ catList) (hc' : c' ∈ catList)
    (hne : c' ≠ c) (a : Analyzer) (b : List (String × Nat)) :
    getBucket (setBucket a c b) c' = getBucket a c' := by
  rcases catList_mem_cases hc with rfl | rfl | rfl | rfl | rfl | rfl | rfl | rfl | rfl | rfl <;>
    rcases catList_mem_cases hc' with rfl | rfl | rfl | rfl | rfl | rfl | rfl | rfl | rfl | rfl <;>
      first
        | exact absurd rfl hne
        | rfl

theorem setBucket_heap {c : String} (hc : c ∈ catList) (a : Analyzer)
    (b : List (String × Nat)) : (setBucket a c b).heap = a.heap := by
  rcases catList_mem_cases hc with rfl | rfl | rfl | rfl | rfl | rfl | rfl | rfl | rfl | rfl <;> rfl

theorem setBucket_detections {c : String} (hc : c ∈ catList) (a : Analyzer)
    (b : List (String × Nat)) : (setBucket a c b).detections = a.detections := by
  rcases catList_mem_cases hc with rfl | rfl | rfl | rfl | rfl | rfl | rfl | rfl | rfl | rfl <;> rfl

theorem getBucket_heap_update (a : Analyzer) (h : List Det) (c : String) :
    getBucket { a with heap := h } c = getBucket a c := rfl

theorem getBucket_detections_update (a : Analyzer) (ds : List Nat) (c : String) :
    getBucket { a with detections := ds } c = getBucket a c := rfl

theorem findRefCat_heap_update (a : Analyzer) (h : List Det) (k : String) :
    findRefCat { a with heap := h } k = findRefCat a k := rfl

/-- A successful `findRefCat` comes from a lookup hit in the named category
dict. -/
theorem findRefCat_spec {a : Analyzer} {k : String} {c : String} {r : Nat}
    (h : findRefCat a k = some (c, r)) :
    c ∈ catList ∧ dlookup (getBucket a c) k = some r := by
  obtain ⟨c', hc', hf⟩ := List.exists_of_findSome?_eq_some h
  rcases ho : dlookup (getBucket a c') k with _ | r'
  · rw [ho] at hf; cases hf
  · rw [ho] at hf
    have h2 : (c', r') = (c, r) := Option.some.inj hf
    have h3 : c' = c := congrArg Prod.fst h2
    have h4 : r' = r := congrArg Prod.snd h2
    subst h3; subst h4
    exact ⟨hc', ho⟩

theorem findRefCat_eq_some {a : Analyzer} {k : String} {l : String} {r : Nat}
    (hl : l ∈ catList) (hself : dlookup (getBucket a l) k = some r)
    (hothers : ∀ c ∈ catList, c ≠ l → dlookup (getBucket a c) k = none) :
    findRefCat a k = some (l, r) := by
  unfold findRefCat
  refine findSome?_eq_some_unique hl ?_ ?_
  · rw [hself]; rfl
  · intro y hy hyl
    rw [hothers y hy hyl]
    rfl

theorem findRefCat_eq_none {a : Analyzer} {k : String}
    (h : ∀ c ∈ catList, dlookup (getBucket a c) k = none) : findRefCat a k = none := by
  unfold findRefCat
  rw [List.findSome?_eq_none_iff]
  intro c hc
  rw [h c hc]
  rfl

theorem findRefCat_none_spec {a : Analyzer} {k : String} (h : findRefCat a k = none) :
    ∀ c ∈ catList, dlookup (getBucket a c) k = none := by
  intro c hc
  unfold findRefCat at h
  rw [List.findSome?_eq_none_iff] at h
  have hc2 := h c hc
  rcases ho : dlookup (getBucket a c) k with _ | r
  · rfl
  · rw [ho] at hc2; simp at hc2

/-! ### Ingestion lemmas -/

theorem hget_cons_zero (d : Det) (rest : List Det) : hget (d :: rest) 0 = d := rfl

theorem hget_cons_succ (d : Det) (rest : List Det) (i : Nat) :
    hget (d :: rest) (i + 1) = hget rest i := rfl

theorem withRanks_map_snd (c : String) (rs : List Nat) (k : Nat) :
    (withRanks c rs k).map Prod.snd = rs := by
  induction rs generalizing k with
  | nil => rfl
  | cons r rest ih => simp [withRanks, ih]

theorem withRanks_map_fst (c : String) (rs : List Nat) (k : Nat) :
    (withRanks c rs k).map Prod.fst
      = (List.range rs.length).map (fun i => idStr c (k + i)) := by
  induction rs generalizing k with
  | nil => rfl
  | cons r rest ih =>
    rw [List.length_cons, List.range_succ_eq_map]
    simp only [withRanks, List.map_cons, List.map_map, ih (k + 1)]
    refine congrArg₂ List.cons (by rw [Nat.add_zero]) ?_
    exact List.map_congr_left (fun i _ => by show idStr c (k + 1 + i) = idStr c (k + (i + 1)); congr 1; omega)

theorem bucketFor_map_fst (raw : List Det) (c : String) :
    (bucketFor raw c).map Prod.fst
      = (List.range (orderedRefsFor raw c).length).map (fun i => idStr c (i + 1)) := by
  rw [bucketFor, withRanks_map_fst]
  exact List.map_congr_left (fun i _ => by congr 1; omega)

theorem bucketFor_map_snd (raw : List Det) (c : String) :
    (bucketFor raw c).map Prod.snd = orderedRefsFor raw c :=
  withRanks_map_snd c _ 1

theorem mem_refsFor {raw : List Det} {c : String} {i : Nat} :
    i ∈ refsFor raw c ↔ i < raw.length ∧ (hget raw i).label = c := by
  simp [refsFor, List.mem_filter, List.mem_range]

theorem orderedRefsFor_perm (raw : List Det) (c : String) :
    (orderedRefsFor raw c).Perm (refsFor raw c) := by
  unfold orderedRefsFor
  split
  · exact List.perm_insertionSort _ _
  · exact List.Perm.refl _

theorem refsFor_nodup (raw : List Det) (c : String) : (refsFor raw c).Nodup :=
  (List.nodup_range _).filter _

theorem orderedRefsFor_nodup (raw : List Det) (c : String) :
    (orderedRefsFor raw c).Nodup :=
  ((orderedRefsFor_perm raw c).nodup_iff).2 (refsFor_nodup raw c)

theorem mem_orderedRefsFor {raw : List Det} {c : String} {i : Nat} :
    i ∈ orderedRefsFor raw c ↔ i < raw.length ∧ (hget raw i).label = c := by
  rw [(orderedRefsFor_perm raw c).mem_iff, mem_refsFor]

theorem sortLE_total (raw : List Det) : ∀ i j, sortLE raw i j ∨ sortLE raw j i := by
  intro i j
  rcases lt_trichotomy (hget raw i).x1 (hget raw j).x1 with h | h | h
  · exact Or.inl (Or.inl h)
  · rcases Nat.le_total i j with hij | hij
    · exact Or.inl (Or.inr ⟨h, hij⟩)
    · exact Or.inr (Or.inr ⟨h.symm, hij⟩)
  · exact Or.inr (Or.inl h)

theorem sortLE_trans (raw : List Det) :
    ∀ i j k, sortLE raw i j → sortLE raw j k → sortLE raw i k := by
  intro i j k hij hjk
  rcases hij with h1 | ⟨h1, h1'⟩ <;> rcases hjk with h2 | ⟨h2, h2'⟩
  · exact Or.inl (h1.trans h2)
  · exact Or.inl (lt_of_lt_of_le h1 (le_of_eq h2))
  · exact Or.inl (lt_of_le_of_lt (le_of_eq h1) h2)
  · exact Or.inr ⟨h1.trans h2, le_trans h1' h2'⟩

theorem orderedRefsFor_sorted (raw : List Det) {c : String} (hc : c ∈ sortedCats) :
    (orderedRefsFor raw c).Sorted (sortLE raw) := by
  unfold orderedRefsFor
  rw [if_pos hc]
  haveI : IsTotal Nat (sortLE raw) := ⟨sortLE_total raw⟩
  haveI : IsTrans Nat (sortLE raw) := ⟨fun _ _ _ => sortLE_trans raw _ _ _⟩
  exact List.sorted_insertionSort _ _

theorem ingest_heap_at {raw : List Det} {i : Nat} (hi : i < raw.length) (a : Analyzer) :
    hget (ingest raw a).heap i = ingestDetAt raw i := by
  show hget ((List.range raw.length).map (ingestDetAt raw)) i = _
  simp [hget, List.getElem?_range hi]

theorem ingestDetAt_x1 (raw : List Det) (i : Nat) :
    (ingestDetAt raw i).x1 = (hget raw i).x1 := by
  unfold ingestDetAt
  dsimp only
  split <;> rfl

theorem getBucket_ingest {c : String} (hc : c ∈ catList) (raw : List Det) (a : Analyzer) :
    getBucket (ingest raw a) c = bucketFor raw c := by
  rcases catList_mem_cases hc with rfl | rfl | rfl | rfl | rfl | rfl | rfl | rfl | rfl | rfl <;> rfl

theorem ingest_bucket_x1 {c : String} (hc : c ∈ catList) (raw : List Det) (a : Analyzer) :
    (getBucket (ingest raw a) c).map (fun p => (hget (ingest raw a).heap p.2).x1)
      = (orderedRefsFor raw c).map (fun i => (hget raw i).x1) := by
  rw [getBucket_ingest hc]
  have h1 : (bucketFor raw c).map (fun p => (hget (ingest raw a).heap p.2).x1)
      = ((bucketFor raw c).map Prod.snd).map (fun i => (hget (ingest raw a).heap i).x1) := by
    rw [List.map_map]; rfl
  rw [h1, bucketFor_map_snd]
  refine List.map_congr_left (fun i hi => ?_)
  have hlt : i < raw.length := (mem_orderedRefsFor.1 hi).1
  rw [ingest_heap_at hlt, ingestDetAt_x1]

theorem refsFor_nil (c : String) : refsFor [] c = [] := rfl

theorem refsFor_cons (d : Det) (rest : List Det) (c : String) :
    refsFor (d :: rest) c
      = if d.label = c then 0 :: (refsFor rest c).map Nat.succ
        else (refsFor rest c).map Nat.succ := by
  unfold refsFor
  rw [List.length_cons, List.range_succ_eq_map, List.filter_cons, List.filter_map]
  by_cases h : d.label = c
  · rw [if_pos h]
    rw [if_pos (by simpa using h)]
    rfl
  · rw [if_neg h]
    rw [if_neg (by simpa using h)]
    rfl

theorem refsFor_map {α : Type} (raw : List Det) (c : String) (f : Det → α) :
    (refsFor raw c).map (fun i => f (hget raw i))
      = (raw.filter (fun d => d.label = c)).map f := by
  induction raw with
  | nil => rfl
  | cons d rest ih =>
    rw [refsFor_cons, List.filter_cons]
    by_cases h : d.label = c
    · rw [if_pos h, if_pos (by simpa using h), List.map_cons, List.map_cons, List.map_map]
      refine congrArg₂ List.cons rfl ?_
      rw [← ih]
      rfl
    · rw [if_neg h, if_neg (by simpa using h), List.map_map]
      rw [← ih]
      rfl

theorem refsFor_length (raw : List Det) (c : String) :
    (refsFor raw c).length = (raw.filter (fun d => d.label = c)).length := by
  have h := refsFor_map raw c (fun _ => ())
  have h1 := congrArg List.length h
  simpa using h1

theorem orderedRefsFor_length (raw : List Det) (c : String) :
    (orderedRefsFor raw c).length = (raw.filter (fun d => d.label = c)).length := by
  rw [(orderedRefsFor_perm raw c).length_eq, refsFor_length]

theorem orderedRefsFor_not_sorted (raw : List Det) {c : String} (hc : c ∉ sortedCats) :
    orderedRefsFor raw c = refsFor raw c := by
  unfold orderedRefsFor
  rw [if_neg hc]

theorem hget_lt_mem {raw : List Det} {i : Nat} (h : i < raw.length) : hget raw i ∈ raw := by
  unfold hget
  rw [List.getD_eq_getElem?_getD, List.getElem?_eq_getElem h]
  exact List.getElem_mem h

theorem hget_eq_getElem {raw : List Det} {i : Nat} (h : i < raw.length) :
    hget raw i = raw[i] := by
  unfold hget
  rw [List.getD_eq_getElem?_getD, List.getElem?_eq_getElem h]
  rfl

theorem refsFor_all {raw : List Det} {c : String} (h : ∀ d ∈ raw, d.label = c) :
    refsFor raw c = List.range raw.length := by
  unfold refsFor
  apply List.filter_eq_self.2
  intro i hi
  have hlt := List.mem_range.1 hi
  simp [h _ (hget_lt_mem hlt)]

theorem refsFor_eq_nil {raw : List Det} {c c' : String} (h : ∀ d ∈ raw, d.label = c)
    (hne : c' ≠ c) : refsFor raw c' = [] := by
  unfold refsFor
  apply List.filter_eq_nil_iff.2
  intro i hi
  have hlt := List.mem_range.1 hi
  simp [h _ (hget_lt_mem hlt)]
  exact fun he => hne he.symm

theorem range_map_hget {α : Type} (raw : List Det) (f : Det → α) :
    (List.range raw.length).map (fun i => f (hget raw i)) = raw.map f := by
  induction raw with
  | nil => rfl
  | cons d rest ih =>
    rw [List.length_cons, List.range_succ_eq_map, List.map_cons, List.map_map]
    refine congrArg₂ List.cons rfl ?_
    rw [← ih]
    rfl

theorem x1_ne_of_ne {raw : List Det} (hdist : (raw.map Det.x1).Pairwise (· ≠ ·))
    {i j : Nat} (hi : i < raw.length) (hj : j < raw.length) (hne : i ≠ j) :
    (hget raw i).x1 ≠ (hget raw j).x1 := by
  rw [List.pairwise_iff_getElem] at hdist
  rw [hget_eq_getElem hi, hget_eq_getElem hj]
  rcases Nat.lt_or_ge i j with h | h
  · have := hdist i j (by simpa using hi) (by simpa using hj) h
    simpa using this
  · have hlt : j < i := by omega
    have := hdist j i (by simpa using hj) (by simpa using hi) hlt
    simp only [List.getElem_map] at this
    exact fun he => this he.symm

theorem orderedRefsFor_x1_pairwise_lt (raw : List Det) {c : String} (hc : c ∈ sortedCats)
    (hdist : (raw.map Det.x1).Pairwise (· ≠ ·)) :
    ((orderedRefsFor raw c).map (fun i => (hget raw i).x1)).Pairwise (· < ·) := by
  rw [List.pairwise_map]
  have hs := orderedRefsFor_sorted raw hc
  have hn : (orderedRefsFor raw c).Pairwise (· ≠ ·) := orderedRefsFor_nodup raw c
  refine (List.Pairwise.and hs hn).imp_of_mem ?_
  intro i j hi hj hij
  obtain ⟨hsle, hne⟩ := hij
  have hib := (mem_orderedRefsFor.1 hi).1
  have hjb := (mem_orderedRefsFor.1 hj).1
  rcases hsle with h | ⟨he, _⟩
  · exact h
  · exact absurd he (x1_ne_of_ne hdist hib hjb hne)

theorem orderedRefsFor_x1_pairwise_le (raw : List Det) {c : String} (hc : c ∈ sortedCats) :
    ((orderedRefsFor raw c).map (fun i => (hget raw i).x1)).Pairwise (· ≤ ·) := by
  rw [List.pairwise_map]
  refine (orderedRefsFor_sorted raw hc).imp ?_
  intro i j hij
  rcases hij with h | ⟨he, _⟩
  · exact le_of_lt h
  · exact le_of_eq he

theorem orderedRefsFor_x1_perm (raw : List Det) (c : String) :
    ((orderedRefsFor raw c).map (fun i => (hget raw i).x1)).Perm
      ((raw.filter (fun d => d.label = c)).map Det.x1) := by
  rw [← refsFor_map raw c Det.x1]
  exact (orderedRefsFor_perm raw c).map _

theorem sortedCats_sub {c : String} (h : c ∈ sortedCats) : c ∈ catList := by
  rcases (by simpa [sortedCats] using h : c = "bar" ∨ c = "uptail" ∨ c = "x_group") with
    rfl | rfl | rfl <;> decide

theorem bucketFor_eq_nil {raw : List Det} {c : String} (h : refsFor raw c = []) :
    bucketFor raw c = [] := by
  unfold bucketFor orderedRefsFor
  rw [h]
  split <;> rfl

/-- Claim C5: ingestion clears every category dict and rebuilds them from the
partition of the raw detections by label: every category receives rank ids
`<category>_1 .. <category>_k` for its `k` detections; the non-positional
categories keep raw detection order, while `bar`, `uptail` and `x_group` are
sorted ascending by `x1`; in particular, ingesting only bar detections with
pairwise distinct `x1` yields exactly the ids `bar_1..bar_N` in strictly
ascending `x1` order with all other dicts empty, and the resulting `x1`
sequence is independent of the input order. -/
theorem thmC5 (a : Analyzer) (raw : List Det) :
    (∀ c ∈ catList,
      (getBucket (ingest raw a) c).map Prod.fst
        = (List.range (raw.filter (fun d => d.label = c)).length).map
            (fun i => idStr c (i + 1)))
    ∧ (∀ c ∈ catList, c ∉ sortedCats →
      (getBucket (ingest raw a) c).map (fun p => (hget (ingest raw a).heap p.2).x1)
        = (raw.filter (fun d => d.label = c)).map Det.x1)
    ∧ (∀ c ∈ sortedCats,
      ((getBucket (ingest raw a) c).map
          (fun p => (hget (ingest raw a).heap p.2).x1)).Pairwise (· ≤ ·)
      ∧ ((getBucket (ingest raw a) c).map
          (fun p => (hget (ingest raw a).heap p.2).x1)).Perm
            ((raw.filter (fun d => d.label = c)).map Det.x1))
    ∧ ((∀ d ∈ raw, d.label = "bar") → (raw.map Det.x1).Pairwise (· ≠ ·) →
      ((ingest raw a).bars.map Prod.fst
          = (List.range raw.length).map (fun i => idStr "bar" (i + 1)))
      ∧ ((ingest raw a).bars.map
          (fun p => (hget (ingest raw a).heap p.2).x1)).Pairwise (· < ·)
      ∧ ((ingest raw a).bars.map
          (fun p => (hget (ingest raw a).heap p.2).x1)).Perm (raw.map Det.x1)
      ∧ (∀ c ∈ catList, c ≠ "bar" → getBucket (ingest raw a) c = [])
      ∧ ∀ raw', raw'.Perm raw →
          (ingest raw' a).bars.map (fun p => (hget (ingest raw' a).heap p.2).x1)
            = (ingest raw a).bars.map (fun p => (hget (ingest raw a).heap p.2).x1)) := by
  have hbarcat : ("bar" : String) ∈ catList := by decide
  have hbarsort : ("bar" : String) ∈ sortedCats := by decide
  have hbars_eq : ∀ (r : List Det), (ingest r a).bars = getBucket (ingest r a) "bar" :=
    fun _ => rfl
  refine ⟨?_, ?_, ?_, ?_⟩
  · intro c hc
    rw [getBucket_ingest hc, bucketFor_map_fst, orderedRefsFor_length]
  · intro c hc hns
    rw [ingest_bucket_x1 hc, orderedRefsFor_not_sorted raw hns, refsFor_map]
  · intro c hc
    constructor
    · rw [ingest_bucket_x1 (sortedCats_sub hc)]
      exact orderedRefsFor_x1_pairwise_le raw hc
    · rw [ingest_bucket_x1 (sortedCats_sub hc)]
      exact orderedRefsFor_x1_perm raw c
  · intro hlab hdist
    have hfilter : raw.filter (fun d => d.label = "bar") = raw :=
      List.filter_eq_self.2 (fun d hd => by simp [hlab d hd])
    have hx1 : ∀ (r : List Det), (∀ d ∈ r, d.label = "bar") →
        (ingest r a).bars.map (fun p => (hget (ingest r a).heap p.2).x1)
          = (orderedRefsFor r "bar").map (fun i => (hget r i).x1) := by
      intro r _
      rw [hbars_eq r, ingest_bucket_x1 hbarcat]
    refine ⟨?_, ?_, ?_, ?_, ?_⟩
    · rw [hbars_eq raw, getBucket_ingest hbarcat, bucketFor_map_fst, orderedRefsFor_length,
        hfilter]
    · rw [hx1 raw hlab]
      exact orderedRefsFor_x1_pairwise_lt raw hbarsort hdist
    · rw [hx1 raw hlab]
      have h1 := orderedRefsFor_x1_perm raw "bar"
      rwa [hfilter] at h1
    · intro c hc hne
      rw [getBucket_ingest hc]
      exact bucketFor_eq_nil (refsFor_eq_nil hlab hne)
    · intro raw' hperm
      have hlab' : ∀ d ∈ raw', d.label = "bar" := fun d hd => hlab d (hperm.mem_iff.1 hd)
      have hdist' : (raw'.map Det.x1).Pairwise (· ≠ ·) :=
        ((hperm.map Det.x1).pairwise_iff (fun hne => hne.symm)).2 hdist
      have hfilter' : raw'.filter (fun d => d.label = "bar") = raw' :=
        List.filter_eq_self.2 (fun d hd => by simp [hlab' d hd])
      have hs1 : ((ingest raw' a).bars.map
          (fun p => (hget (ingest raw' a).heap p.2).x1)).Pairwise (· < ·) := by
        rw [hx1 raw' hlab']
        exact orderedRefsFor_x1_pairwise_lt raw' hbarsort hdist'
      have hs2 : ((ingest raw a).bars.map
          (fun p => (hget (ingest raw a).heap p.2).x1)).Pairwise (· < ·) := by
        rw [hx1 raw hlab]
        exact orderedRefsFor_x1_pairwise_lt raw hbarsort hdist
      have hp1 : ((ingest raw' a).bars.map
          (fun p => (hget (ingest raw' a).heap p.2).x1)).Perm (raw'.map Det.x1) := by
        rw [hx1 raw' hlab']
        have h1 := orderedRefsFor_x1_perm raw' "bar"
        rwa [hfilter'] at h1
      have hp2 : ((ingest raw a).bars.map
          (fun p => (hget (ingest raw a).heap p.2).x1)).Perm (raw.map Det.x1) := by
        rw [hx1 raw hlab]
        have h1 := orderedRefsFor_x1_perm raw "bar"
        rwa [hfilter] at h1
      haveI : IsAntisymm ℚ (· < ·) := ⟨fun x y h1 h2 => absurd h2 (lt_asymm h1)⟩
      exact List.eq_of_perm_of_sorted
        (hp1.trans ((hperm.map Det.x1).trans hp2.symm)) hs1 hs2

/-- A concrete detection dict for the witness states. -/
def mkDet (l : String) (x1 y1 x2 y2 : ℚ) : Det :=
  { x1 := x1, y1 := y1, x2 := x2, y2 := y2, conf := some 1, clsIdx := some 0, label := l }

/-- The three bar detections of the C5 witness, given out of order. -/
def exC5raw : List Det := [mkDet "bar" 3 10 4 20, mkDet "bar" 1 10 2 20, mkDet "bar" 2 10 3 20]

theorem thmC5_witness :
    (ingest exC5raw initAnalyzer).bars.map Prod.fst = ["bar_1", "bar_2", "bar_3"]
    ∧ (ingest exC5raw initAnalyzer).bars.map
        (fun p => (hget (ingest exC5raw initAnalyzer).heap p.2).x1) = [1, 2, 3]
    ∧ (ingest exC5raw initAnalyzer).uptails = [] := by
  have h := (thmC5 initAnalyzer exC5raw).2.2.2 (by decide) (by decide)
  exact ⟨h.1.trans (by decide), by decide, by decide⟩

instance exceptDecEq {ε α : Type} [DecidableEq ε] [DecidableEq α] :
    DecidableEq (Except ε α)
  | .error a, .error b =>
    decidable_of_iff (a = b) ⟨fun h => by rw [h], fun h => by cases h; rfl⟩
  | .error _, .ok _ => isFalse (fun h => by cases h)
  | .ok _, .error _ => isFalse (fun h => by cases h)
  | .ok a, .ok b =>
    decidable_of_iff (a = b) ⟨fun h => by rw [h], fun h => by cases h; rfl⟩

/-! ### Claim C1 -/

/-- A state with a zero-span yaxis box: `add_new_box` performs no coordinate
validation, so a yaxis box with `y1 = y2 = 7` is accepted and stored. -/
def exC1zero : Analyzer :=
  (add_new_box { initAnalyzer with origin_value := .num 0, ymax_value := .num 100 }
    { x1 := some 0, y1 := some 7, x2 := some 5, y2 := some 7,
      label := some "yaxis" }).1

/-- Claim C1 counterexample: on `exC1zero` both calibration values convert to
floats and the yaxis dict is non-empty — the claim's hypotheses hold — yet
`calculate_heights` raises `ZeroDivisionError` instead of returning the
heights: the divisor `yaxis.y1 - yaxis.y2` of `scale_factor` is zero. -/
theorem thmC1_cex :
    floatOfPyVal exC1zero.origin_value = some 0
    ∧ floatOfPyVal exC1zero.ymax_value = some 100
    ∧ exC1zero.yaxis ≠ []
    ∧ calculate_heights exC1zero
        = .error "ZeroDivisionError: float division by zero" := by
  exact ⟨by decide, by decide, by decide, by decide⟩

/-- Claim C1 amended: whenever `origin_value` and `ymax_value` convert to
floats, the yaxis dict is non-empty and the first yaxis entity has nonzero
pixel span (`y1 ≠ y2`, so the divisor below is nonzero), `calculate_heights`
succeeds and computes
`scale_factor = (ymax_value - origin_value) / (yaxis.y1 - yaxis.y2)` from the
first yaxis entry, each bar height as
`(bar.y1 - bar.y2) * scale_factor + origin_value` in dict (rank) order, and
each uptail height as `(uptail.y1 - uptail.y2) * scale_factor` with no origin
offset; on a zero-span yaxis it raises `ZeroDivisionError` instead (see the
counterexample). -/
theorem thmC1 (a : Analyzer) (o m : ℚ) (k : String) (r0 : Nat)
    (tl : List (String × Nat))
    (ho : floatOfPyVal a.origin_value = some o)
    (hm : floatOfPyVal a.ymax_value = some m)
    (hy : a.yaxis = (k, r0) :: tl)
    (hnz : (hget a.heap r0).y1 ≠ (hget a.heap r0).y2) :
    ∃ s' res, calculate_heights a = .ok (s', (a.label_text, res))
      ∧ res.bar_heights = a.bars.map (fun p =>
          ((hget a.heap p.2).y1 - (hget a.heap p.2).y2)
            * ((m - o) / ((hget a.heap r0).y1 - (hget a.heap r0).y2)) + o)
      ∧ res.uptail_heights = a.uptails.map (fun p =>
          ((hget a.heap p.2).y1 - (hget a.heap p.2).y2)
            * ((m - o) / ((hget a.heap r0).y1 - (hget a.heap r0).y2))) := by
  unfold calculate_heights
  rw [ho, hm, hy]
  dsimp only
  rw [if_neg hnz]
  split
  · exact ⟨_, _, rfl, rfl, rfl⟩
  · exact ⟨_, _, rfl, rfl, rfl⟩

/-- The C1 witness state: yaxis pixel span 200, a bar spanning 100 pixels,
origin 0 and ymax 100. -/
def exC1 : Analyzer := { initAnalyzer with
  heap := [mkDet "yaxis" 0 50 5 250, mkDet "bar" 10 100 20 200],
  detections := [0, 1],
  yaxis := [("yaxis_1", 0)], bars := [("bar_1", 1)],
  origin_value := .num 0, ymax_value := .num 100 }

theorem thmC1_witness :
    ∃ s' res, calculate_heights exC1 = .ok (s', ("", res)) ∧ res.bar_heights = [50] := by
  obtain ⟨s', res, hok, hbar, _⟩ := thmC1 exC1 0 100 "yaxis_1" 0 [] rfl rfl rfl (by decide)
  refine ⟨s', res, hok, ?_⟩
  rw [hbar]
  simp only [exC1, initAnalyzer, mkDet, hget, List.getD, List.map_cons, List.map_nil,
    List.getElem?_cons_zero, List.getElem?_cons_succ, Option.getD_some]
  norm_num

/-! ### Claim C2 -/

/-- The C2 counterexample state: yaxis present and calibration values
parsable, but the bars and xaxis dicts empty. -/
def exC2 : Analyzer := { initAnalyzer with
  heap := [mkDet "yaxis" 0 300 5 100],
  detections := [0],
  yaxis := [("yaxis_1", 0)],
  origin_value := .str "0", ymax_value := .str "100" }

/-- Claim C2 counterexample: the registry is not ready (`get_component_status`
reports `xaxis` and `bars` missing and `ready = false`), yet
`calculate_heights` succeeds instead of failing with a NotReady error. -/
theorem thmC2_cex :
    get_component_status exC2
      = .ok { present_components :=
                [("yaxis", .count 1), ("ymax", .manual), ("origin", .manual)],
              missing_components := ["xaxis", "bars"],
              all_components_ready := false }
    ∧ (calculate_heights exC2).isOk = true
    ∧ exC2.bars = [] ∧ exC2.xaxis = [] := by
  exact ⟨by decide, by decide, rfl, rfl⟩

/-- Claim C2 amended: `calculate_heights` performs no readiness check at all;
it succeeds exactly when both calibration values convert to floats, the yaxis
dict is non-empty and the first yaxis entity has nonzero pixel span (a zero
span raises `ZeroDivisionError`); in particular it succeeds (with empty
height lists) when the bars or xaxis dicts are empty. -/
theorem thmC2_amended (a : Analyzer) :
    (calculate_heights a).isOk = true
      ↔ ((floatOfPyVal a.origin_value).isSome
          ∧ (floatOfPyVal a.ymax_value).isSome
          ∧ ∃ k r0 tl, a.yaxis = (k, r0) :: tl
              ∧ (hget a.heap r0).y1 ≠ (hget a.heap r0).y2) := by
  unfold calculate_heights
  rcases ho : floatOfPyVal a.origin_value with _ | o
  · simp [Except.isOk, Except.toBool]
  · rcases hm : floatOfPyVal a.ymax_value with _ | m
    · simp [Except.isOk, Except.toBool]
    · rcases hy : a.yaxis with _ | ⟨p, tl⟩
      · simp [Except.isOk, Except.toBool]
      · dsimp only
        split
        next hz =>
          refine iff_of_false (by simp [Except.isOk, Except.toBool]) ?_
          rintro ⟨-, -, k, r0, tl2, heq, hnz⟩
          injection heq with h1 h2
          rw [h1] at hz
          exact hnz hz
        next hz =>
          split <;>
            exact iff_of_true (by simp [Except.isOk, Except.toBool])
              ⟨rfl, rfl, p.1, p.2, tl, rfl, hz⟩

/-! ### Claim C6 -/

/-- The documented numeric manual override: `ymax_value = 25` with no ymax
detection. -/
def exC6num : Analyzer := { initAnalyzer with ymax_value := .num 25 }

/-- The same override given as a string. -/
def exC6str : Analyzer := { initAnalyzer with ymax_value := .str "25" }

/-- Claim C6 (code bug): a numeric `ymax_value` parses as a finite number, so
per the claim `ymax` should count as present; instead `get_component_status`
calls `.strip()` on the float and raises `AttributeError` (while the numeric
value 0 of a fresh analyzer is skipped as falsy and `origin` stays missing).
The same value passed as the string "25" behaves as the claim describes. -/
theorem thmC6_bug :
    floatOfPyVal (PyVal.num 25) = some 25
    ∧ get_component_status exC6num
        = .error "AttributeError: float object has no attribute strip"
    ∧ get_component_status exC6str
        = .ok { present_components := [("ymax", .manual)],
                missing_components := ["yaxis", "xaxis", "bars", "origin"],
                all_components_ready := false }
    ∧ floatOfPyVal initAnalyzer.origin_value = some 0
    ∧ get_component_status initAnalyzer
        = .ok { present_components := [],
                missing_components := ["yaxis", "xaxis", "bars", "ymax", "origin"],
                all_components_ready := false } := by
  exact ⟨by decide, by decide, by decide, by decide, by decide⟩

/-! ### Claim C7 -/

/-- The coordinate overwrite `dict.update(new_coords)` applied to a detection
dict: only the four coordinate keys change. -/
def coordUpdate (d : Det) (x1 y1 x2 y2 : ℚ) : Det :=
  { d with x1 := x1, y1 := y1, x2 := x2, y2 := y2 }

/-- Claim C7: `update_box_coordinates` rejects (raises, applying no mutation)
when `x1 ≥ x2 ∨ y1 ≥ y2`, returns `false` leaving the state unchanged when
the id is unknown, and on success overwrites exactly the four coordinates of
the target detection dict in place — every category dict, the raw detections
list and every other heap cell are untouched, so no re-sorting or re-ranking
occurs and a subsequent lookup returns the last applied values. -/
theorem thmC7 (a : Analyzer) (box_id : String) (x1 y1 x2 y2 : ℚ) :
    ((x1 ≥ x2 ∨ y1 ≥ y2) →
      update_box_coordinates a box_id x1 y1 x2 y2
        = (a, .error "Invalid coordinates: x1 must be < x2 and y1 must be < y2"))
    ∧ (¬ (x1 ≥ x2 ∨ y1 ≥ y2) → findRefCat a box_id = none →
      update_box_coordinates a box_id x1 y1 x2 y2 = (a, .ok false))
    ∧ (∀ c r, ¬ (x1 ≥ x2 ∨ y1 ≥ y2) → findRefCat a box_id = some (c, r) →
      update_box_coordinates a box_id x1 y1 x2 y2
          = ({ a with
              heap := a.heap.set r (coordUpdate (hget a.heap r) x1 y1 x2 y2) }, .ok true)
        ∧ (r < a.heap.length →
            get_box_by_id (update_box_coordinates a box_id x1 y1 x2 y2).1 box_id
              = some (coordUpdate (hget a.heap r) x1 y1 x2 y2))
        ∧ ∀ r', r' ≠ r →
            hget (update_box_coordinates a box_id x1 y1 x2 y2).1.heap r'
              = hget a.heap r') := by
  refine ⟨?_, ?_, ?_⟩
  · intro h
    unfold update_box_coordinates
    rw [if_pos h]
  · intro h hnone
    unfold update_box_coordinates
    rw [if_neg h, hnone]
  · intro c r h hfind
    have hu : update_box_coordinates a box_id x1 y1 x2 y2
        = ({ a with
            heap := a.heap.set r (coordUpdate (hget a.heap r) x1 y1 x2 y2) }, .ok true) := by
      unfold update_box_coordinates
      rw [if_neg h, hfind]
      rfl
    refine ⟨hu, ?_, ?_⟩
    · intro hr
      rw [hu]
      unfold get_box_by_id
      rw [findRefCat_heap_update, hfind]
      exact congrArg some (hget_set_self hr _)
    · intro r' hne
      rw [hu]
      exact hget_set_ne a.heap hne _

/-- The C7/C8/C9 witness base state: a single valid bar box. -/
def exC7 : Analyzer := { initAnalyzer with
  heap := [mkDet "bar" 10 20 30 40],
  detections := [0],
  bars := [("bar_1", 0)] }

theorem thmC7_witness :
    update_box_coordinates exC7 "bar_1" 1 2 3 4
        = ({ exC7 with
            heap := exC7.heap.set 0 (coordUpdate (hget exC7.heap 0) 1 2 3 4) }, .ok true)
    ∧ get_box_by_id (update_box_coordinates exC7 "bar_1" 1 2 3 4).1 "bar_1"
        = some (coordUpdate (hget exC7.heap 0) 1 2 3 4)
    ∧ update_box_coordinates exC7 "bar_1" 9 2 3 4
        = (exC7, .error "Invalid coordinates: x1 must be < x2 and y1 must be < y2") := by
  have h3 := (thmC7 exC7 "bar_1" 1 2 3 4).2.2 "bar" 0 (by norm_num) (by decide)
  exact ⟨h3.1, h3.2.1 (by decide), (thmC7 exC7 "bar_1" 9 2 3 4).1 (by norm_num)⟩

/-! ### Claim C4 -/

/-- Shared concrete state for recategorization claims: one label and one bar
detection. -/
def exC4 : Analyzer :=
  ingest [mkDet "label" 5 5 8 8, mkDet "bar" 10 100 20 200] initAnalyzer

/-- Claim C4 counterexample: a category outside the fixed set is not
rejected — `change_box_category` returns `true`, removes the entity from its
dict, relabels it and inserts it into no dict, so the registry is mutated and
the entity is lost from every category. -/
theorem thmC4_cex :
    ("banana" ∉ catList)
    ∧ (change_box_category exC4 "bar_1" "banana").2 = true
    ∧ (∀ c ∈ catList,
        dcontains (getBucket (change_box_category exC4 "bar_1" "banana").1 c) "bar_1"
          = false)
    ∧ (hget (change_box_category exC4 "bar_1" "banana").1.heap 1).label = "banana"
    ∧ (change_box_category exC4 "bar_1" "banana").1 ≠ exC4 := by
  exact ⟨by decide, by decide, by decide, by decide, by decide⟩

/-- Claim C4 amended: when the id is found in a category dict and the new
category is in the fixed set, `change_box_category` returns `true`, moves the
entity (same id key, same reference) into the new category dict, removes it
from the old one, leaves every other dict unchanged and only rewrites the
label of the detection dict, preserving its box coordinates; but an
unrecognized `new_category` is accepted rather than rejected (see the
counterexample), and an id found in no dict is not simply rejected either:
when the original-index fallback also finds nothing the call returns `false`
with the registry unchanged, when it locates a detection whose current label
is in the fixed set the removal step raises `KeyError` and the call returns
`false` with the registry unchanged, yet when the located detection's label
is outside the fixed set (reachable after an unrecognized recategorization)
the detection is relabeled and inserted under the unknown id and `true` is
returned, mutating the registry. -/
theorem thmC4_amended (a : Analyzer) (box_id new_category : String) :
    (∀ c r, findRefCat a box_id = some (c, r) → new_category ∈ catList →
      r < a.heap.length →
      (change_box_category a box_id new_category).2 = true
      ∧ dlookup (getBucket (change_box_category a box_id new_category).1 new_category)
          box_id = some r
      ∧ (c ≠ new_category →
          dcontains (getBucket (change_box_category a box_id new_category).1 c) box_id
            = false)
      ∧ (∀ c' ∈ catList, c' ≠ c → c' ≠ new_category →
          getBucket (change_box_category a box_id new_category).1 c' = getBucket a c')
      ∧ hget (change_box_category a box_id new_category).1.heap r
          = { hget a.heap r with label := new_category }
      ∧ (∀ r', r' ≠ r →
          hget (change_box_category a box_id new_category).1.heap r' = hget a.heap r'))
    ∧ (findRefCat a box_id = none → fallbackRef a box_id = none →
        change_box_category a box_id new_category = (a, false))
    ∧ (∀ lab r, findRefCat a box_id = none → fallbackRef a box_id = some (lab, r) →
        lab ∈ catList → change_box_category a box_id new_category = (a, false))
    ∧ (∀ lab r, findRefCat a box_id = none → fallbackRef a box_id = some (lab, r) →
        lab ∉ catList → new_category ∈ catList → r < a.heap.length →
        (change_box_category a box_id new_category).2 = true
        ∧ dlookup (getBucket (change_box_category a box_id new_category).1 new_category)
            box_id = some r
        ∧ hget (change_box_category a box_id new_category).1.heap r
            = { hget a.heap r with label := new_category }) := by
  refine ⟨?_, ?_, ?_, ?_⟩
  · intro c r hfind hnc hr
    obtain ⟨hc, hlook⟩ := findRefCat_spec hfind
    have hcont := dcontains_of_dlookup_some hlook
    have hstep : change_box_category a box_id new_category
        = finishChange (setBucket a c (ddel (getBucket a c) box_id)) box_id new_category r := by
      unfold change_box_category
      rw [hfind]
      dsimp only
      rw [if_pos hc, hcont]
      rfl
    have ha1heap : (setBucket a c (ddel (getBucket a c) box_id)).heap = a.heap :=
      setBucket_heap hc a _
    have hfc : change_box_category a box_id new_category
        = (setBucket
            { setBucket a c (ddel (getBucket a c) box_id) with
              heap := a.heap.set r { hget a.heap r with label := new_category } }
            new_category
            (dinsert (getBucket (setBucket a c (ddel (getBucket a c) box_id)) new_category)
              box_id r), true) := by
      rw [hstep]
      unfold finishChange
      rw [if_pos hnc, ha1heap]
      rfl
    have hs'heap : (change_box_category a box_id new_category).1.heap
        = a.heap.set r { hget a.heap r with label := new_category } := by
      rw [hfc]
      exact setBucket_heap hnc _ _
    refine ⟨by rw [hfc], ?_, ?_, ?_, ?_, ?_⟩
    · rw [hfc]
      show dlookup (getBucket (setBucket _ new_category _) new_category) box_id = some r
      rw [getBucket_setBucket_same hnc]
      exact dlookup_dinsert_self _ box_id r
    · intro hne
      rw [hfc]
      show dcontains (getBucket (setBucket _ new_category _) c) box_id = false
      rw [getBucket_setBucket_ne hnc hc hne,
        getBucket_heap_update, getBucket_setBucket_same hc]
      exact dcontains_ddel_self _ box_id
    · intro c' hc' hne1 hne2
      rw [hfc]
      show getBucket (setBucket _ new_category _) c' = getBucket a c'
      rw [getBucket_setBucket_ne hnc hc' hne2, getBucket_heap_update,
        getBucket_setBucket_ne hc hc' hne1]
    · rw [hs'heap]
      exact hget_set_self hr _
    · intro r' hne
      rw [hs'heap]
      exact hget_set_ne a.heap hne _
  · intro hnone hfbn
    unfold change_box_category
    rw [hnone]
    dsimp only
    rw [hfbn]
  · intro lab r hnone hfb hlab
    have hlook := findRefCat_none_spec hnone lab hlab
    have hcont : dcontains (getBucket a lab) box_id = false := dlookup_eq_none_iff.1 hlook
    unfold change_box_category
    rw [hnone]
    dsimp only
    rw [hfb]
    dsimp only
    rw [if_pos hlab, hcont]
    rfl
  · intro lab r hnone hfb hlabn hnc hr
    have hstep : change_box_category a box_id new_category
        = finishChange a box_id new_category r := by
      unfold change_box_category
      rw [hnone]
      dsimp only
      rw [hfb]
      dsimp only
      rw [if_neg hlabn]
    have hfc : change_box_category a box_id new_category
        = (setBucket { a with heap := a.heap.set r { hget a.heap r with label := new_category } }
            new_category
            (dinsert (getBucket { a with
                heap := a.heap.set r { hget a.heap r with label := new_category } } new_category)
              box_id r), true) := by
      rw [hstep]
      unfold finishChange
      rw [if_pos hnc]
    refine ⟨by rw [hfc], ?_, ?_⟩
    · rw [hfc]
      show dlookup (getBucket (setBucket _ new_category _) new_category) box_id = some r
      rw [getBucket_setBucket_same hnc]
      exact dlookup_dinsert_self _ box_id r
    · have hs'heap : (change_box_category a box_id new_category).1.heap
          = a.heap.set r { hget a.heap r with label := new_category } := by
        rw [hfc]
        exact setBucket_heap hnc _ _
      rw [hs'heap]
      exact hget_set_self hr _

/-- `exC4` after the counterexample's unrecognized recategorization: the bar
detection now carries the label `"banana"` and sits in no category dict. -/
def exC4banana : Analyzer := (change_box_category exC4 "bar_1" "banana").1

theorem thmC4_witness :
    ((change_box_category exC4 "label_1" "x_group").2 = true
    ∧ dlookup (change_box_category exC4 "label_1" "x_group").1.x_groups "label_1"
        = some 0
    ∧ dcontains (change_box_category exC4 "label_1" "x_group").1.labels "label_1"
        = false
    ∧ (hget (change_box_category exC4 "label_1" "x_group").1.heap 0).x1 = 5
    ∧ (hget (change_box_category exC4 "label_1" "x_group").1.heap 0).y2 = 8)
    ∧ change_box_category exC4banana "nonsense" "x_group" = (exC4banana, false)
    ∧ change_box_category exC4 "bar_2" "legend_group" = (exC4, false)
    ∧ ((change_box_category exC4banana "bar_2" "x_group").2 = true
    ∧ dlookup (getBucket (change_box_category exC4banana "bar_2" "x_group").1 "x_group")
        "bar_2" = some 1) := by
  obtain ⟨h1, h2, h3, _, h5, _⟩ :=
    (thmC4_amended exC4 "label_1" "x_group").1 "label" 0 (by decide) (by decide) (by decide)
  obtain ⟨g1, g2, _⟩ :=
    (thmC4_amended exC4banana "bar_2" "x_group").2.2.2 "banana" 1 (by decide) (by decide)
      (by decide) (by decide) (by decide)
  refine ⟨⟨h1, h2, h3 (by decide), ?_, ?_⟩, ?_, ?_, g1, g2⟩
  · rw [h5]; decide
  · rw [h5]; decide
  · exact (thmC4_amended exC4banana "nonsense" "x_group").2.1 (by decide) (by decide)
  · exact (thmC4_amended exC4 "bar_2" "legend_group").2.2.1 "bar" 1 (by decide) (by decide)
      (by decide)

/-! ### Claim C10 -/

/-- Claim C10 counterexample: the id `bar_2` is in no category dict of
`exC4`, its suffix parses to rank 2, and the raw detection with
`original_index = 1` exists (the bar currently ranked `bar_1`), yet
`change_box_category` returns `false` and leaves the registry unchanged —
the fallback never recategorizes because the `del` on the old category dict
raises `KeyError`. -/
theorem thmC10_cex :
    findRefCat exC4 "bar_2" = none
    ∧ fallbackRef exC4 "bar_2" = some ("bar", 1)
    ∧ change_box_category exC4 "bar_2" "x_group" = (exC4, false) := by
  exact ⟨by decide, by decide, by decide⟩

/-- Claim C10 amended: when the id is a key of no category dict and the
original-index fallback locates a raw detection whose current label is one of
the fixed categories, `change_box_category` returns `false` with the registry
unchanged (the deletion step raises `KeyError`, caught by the outer handler),
instead of recategorizing that detection and returning `true` as claimed. -/
theorem thmC10_amended (a : Analyzer) (box_id new_category lab : String) (r : Nat)
    (hnone : findRefCat a box_id = none)
    (hfb : fallbackRef a box_id = some (lab, r))
    (hlab : lab ∈ catList) :
    change_box_category a box_id new_category = (a, false) := by
  have hlook := findRefCat_none_spec hnone lab hlab
  have hcont : dcontains (getBucket a lab) box_id = false := dlookup_eq_none_iff.1 hlook
  unfold change_box_category
  rw [hnone]
  dsimp only
  rw [hfb]
  dsimp only
  rw [if_pos hlab, hcont]
  rfl

theorem thmC10_witness : change_box_category exC4 "bar_2" "legend" = (exC4, false) :=
  thmC10_amended exC4 "bar_2" "legend" "bar" 1 (by decide) (by decide) (by decide)

/-! ### Claim C3 -/

/-- Two bar detections for the C3 counterexample. -/
def exC3raw : List Det := [mkDet "bar" 1 10 2 20, mkDet "bar" 3 10 4 20]

/-- After ingesting two bars and removing `bar_1`. -/
def exC3b : Analyzer := (remove_box (ingest exC3raw initAnalyzer) "bar_1").1

/-- The box added after the removal. -/
def exC3add : NewBoxData :=
  { x1 := some 7, y1 := some 8, x2 := some 9, y2 := some 10, label := some "bar" }

/-- Claim C3 counterexample: after removing `bar_1` from a two-bar registry,
`add_new_box` assigns `bar_2` — an id already held by a live entity — and
silently overwrites that entity in the bars dict: two distinct detection
dicts now carry the id `bar_2`, and the original one is in no category
dict. -/
theorem thmC3_cex :
    dcontains exC3b.bars "bar_2" = true
    ∧ (add_new_box exC3b exC3add).2 = some "bar_2"
    ∧ (add_new_box exC3b exC3add).1.bars = [("bar_2", 2)]
    ∧ (hget (add_new_box exC3b exC3add).1.heap 1).id = some "bar_2"
    ∧ (hget (add_new_box exC3b exC3add).1.heap 2).id = some "bar_2"
    ∧ hget (add_new_box exC3b exC3add).1.heap 1 ≠ hget (add_new_box exC3b exC3add).1.heap 2
    ∧ (∀ c ∈ catList,
        ((getBucket (add_new_box exC3b exC3add).1 c).all (fun p => ¬ p.2 = 1)) = true) := by
  exact ⟨by decide, by decide, by decide, by decide, by decide, by decide, by decide⟩

/-- Claim C3 amended: immediately after ingestion every id appears in exactly
one category dict (the concatenation of all dict key lists has no duplicate),
but the invariant is not maintained by the mutation operations: `add_box`
after `remove_box` reassigns a live id and silently overwrites its entity,
and recategorization keeps the old id in the destination dict (see the
counterexample). -/
theorem thmC3_amended (a : Analyzer) (raw : List Det) :
    ((catList.map (fun c => (getBucket (ingest raw a) c).map Prod.fst)).flatten).Nodup := by
  rw [List.nodup_flatten]
  constructor
  · intro l hl
    obtain ⟨c, hc, rfl⟩ := List.mem_map.1 hl
    rw [getBucket_ingest hc, bucketFor_map_fst]
    refine List.Nodup.map ?_ (List.nodup_range _)
    intro i j hij
    have h := idStr_inj hij
    omega
  · rw [List.pairwise_map]
    have hnd : catList.Pairwise (· ≠ ·) := by decide
    refine hnd.imp_of_mem ?_
    intro c1 c2 h1 h2 hne
    intro k hk1 hk2
    rw [getBucket_ingest h1, bucketFor_map_fst] at hk1
    rw [getBucket_ingest h2, bucketFor_map_fst] at hk2
    obtain ⟨i, _, rfl⟩ := List.mem_map.1 hk1
    obtain ⟨j, _, hj⟩ := List.mem_map.1 hk2
    exact hne (idStr_inj hj.symm).1

/-! ### Claim C8 -/

/-- The invalid box of the C8 counterexample (`x1 > x2`). -/
def exC8add : NewBoxData :=
  { x1 := some 5, y1 := some 2, x2 := some 1, y2 := some 4, label := some "bar" }

/-- Claim C8 counterexample: `add_new_box` performs no coordinate validation,
so a box with `x1 > x2` is accepted and stored, violating the claimed
invariant `x1 < x2 ∧ y1 < y2` for stored boxes. -/
theorem thmC8_cex :
    (add_new_box initAnalyzer exC8add).2 = some "bar_1"
    ∧ get_box_by_id (add_new_box initAnalyzer exC8add).1 "bar_1"
        = some { x1 := 5, y1 := 2, x2 := 1, y2 := 4, conf := none, clsIdx := none,
                 label := "bar", id := some "bar_1", original_index := none }
    ∧ ¬ ((5 : ℚ) < 1) := by
  exact ⟨by decide, by decide, by norm_num⟩

/-- Claim C8 amended: the invariant `x1 < x2 ∧ y1 < y2` is enforced only by
`update_box_coordinates`, which rejects violating coordinates without
mutating anything and preserves validity of every entity reachable through
the category dicts; `add_new_box` performs no such check, so the invariant
holds after arbitrary operation sequences only when every added or ingested
box already satisfies it (see the counterexample). -/
theorem thmC8_amended (a : Analyzer) (box_id : String) (x1 y1 x2 y2 : ℚ)
    (hinv : ∀ c ∈ catList, ∀ p ∈ getBucket a c,
      (hget a.heap p.2).x1 < (hget a.heap p.2).x2
        ∧ (hget a.heap p.2).y1 < (hget a.heap p.2).y2) :
    ((x1 ≥ x2 ∨ y1 ≥ y2) → (update_box_coordinates a box_id x1 y1 x2 y2).1 = a)
    ∧ ∀ c ∈ catList, ∀ p ∈ getBucket (update_box_coordinates a box_id x1 y1 x2 y2).1 c,
        (hget (update_box_coordinates a box_id x1 y1 x2 y2).1.heap p.2).x1
            < (hget (update_box_coordinates a box_id x1 y1 x2 y2).1.heap p.2).x2
          ∧ (hget (update_box_coordinates a box_id x1 y1 x2 y2).1.heap p.2).y1
            < (hget (update_box_coordinates a box_id x1 y1 x2 y2).1.heap p.2).y2 := by
  by_cases hbad : (x1 ≥ x2 ∨ y1 ≥ y2)
  · have hs : update_box_coordinates a box_id x1 y1 x2 y2
        = (a, .error "Invalid coordinates: x1 must be < x2 and y1 must be < y2") := by
      unfold update_box_coordinates
      rw [if_pos hbad]
    rw [hs]
    exact ⟨fun _ => rfl, hinv⟩
  · refine ⟨fun h => absurd h hbad, ?_⟩
    rcases hfind : findRefCat a box_id with _ | ⟨c0, r⟩
    · have hs : update_box_coordinates a box_id x1 y1 x2 y2 = (a, .ok false) := by
        unfold update_box_coordinates
        rw [if_neg hbad, hfind]
      rw [hs]
      exact hinv
    · have hs : update_box_coordinates a box_id x1 y1 x2 y2
          = ({ a with
              heap := a.heap.set r (coordUpdate (hget a.heap r) x1 y1 x2 y2) }, .ok true) := by
        unfold update_box_coordinates
        rw [if_neg hbad, hfind]
        rfl
      rw [hs]
      intro c hc p hp
      rw [getBucket_heap_update] at hp
      by_cases hpr : p.2 = r
      · rw [hpr]
        by_cases hlen : r < a.heap.length
        · rw [hget_set_self hlen]
          unfold coordUpdate
          push_neg at hbad
          exact hbad
        · rw [List.set_eq_of_length_le (by omega)]
          exact hinv c hc p hp |>.imp (by rw [hpr]; exact id) (by rw [hpr]; exact id)
      · rw [hget_set_ne a.heap hpr]
        exact hinv c hc p hp

theorem thmC8_witness :
    (update_box_coordinates exC7 "bar_1" 9 9 1 1).1 = exC7
    ∧ (hget (update_box_coordinates exC7 "bar_1" 9 9 1 1).1.heap 0).x1
        < (hget (update_box_coordinates exC7 "bar_1" 9 9 1 1).1.heap 0).x2 := by
  obtain ⟨h1, h2⟩ := thmC8_amended exC7 "bar_1" 9 9 1 1 (by decide)
  have hs := h1 (by norm_num)
  exact ⟨hs, (h2 "bar" (by decide) ("bar_1", 0) (by rw [hs]; decide)).1⟩

/-! ### Claim C9 -/

/-- The recategorized state for the C9 counterexample: the former label
entity now sits in the bars dict under its old id `label_1`. -/
def exC9a : Analyzer := (change_box_category exC4 "label_1" "bar").1

/-- The label box added in the C9 scenarios. -/
def exC9add : NewBoxData :=
  { x1 := some 1, y1 := some 2, x2 := some 3, y2 := some 4, label := some "label" }

/-- Claim C9 counterexample: after a recategorization has parked the id
`label_1` in the bars dict, adding a label box assigns the id `label_1`
again; `get_box_by_id` searches the bars dict first and returns the *other*
entity (with `x1 = 5`), not the newly added box (with `x1 = 1`), so the
add/get round trip of the claim fails. -/
theorem thmC9_cex :
    (add_new_box exC9a exC9add).2 = some "label_1"
    ∧ exC9add.x1 = some 1
    ∧ (get_box_by_id (add_new_box exC9a exC9add).1 "label_1").map Det.x1 = some 5
    ∧ dlookup (add_new_box exC9a exC9add).1.labels "label_1" = some 2
    ∧ (hget (add_new_box exC9a exC9add).1.heap 2).x1 = 1 := by
  exact ⟨by decide, rfl, by decide, by decide, by decide⟩

/-- The detection dict built by a successful `add_new_box`. -/
def mkNewBox (d : NewBoxData) (qx1 qy1 qx2 qy2 : ℚ) (lab nid : String) : Det :=
  { x1 := qx1, y1 := qy1, x2 := qx2, y2 := qy2, conf := d.conf, clsIdx := d.clsIdx,
    label := lab, id := some nid, original_index := none }

/-- Claim C9 amended: `add_new_box` requires the five fields and a recognized
category, returning the `None` sentinel (with no mutation) otherwise; on
success it assigns the id `<category>_<count+1>`, stores the new dict in its
category dict and appends it to the raw detections list, and — provided the
assigned id is not already a key of any category dict — `get_box_by_id`
returns the new entity with exactly the input fields, and after
`remove_box` the id resolves to not-found. -/
theorem thmC9_amended (a : Analyzer) (d : NewBoxData) (qx1 qy1 qx2 qy2 : ℚ)
    (lab : String)
    (h1 : d.x1 = some qx1) (h2 : d.y1 = some qy1) (h3 : d.x2 = some qx2)
    (h4 : d.y2 = some qy2) (h5 : d.label = some lab) (hlab : lab ∈ catList)
    (hfresh : ∀ c ∈ catList,
      dlookup (getBucket a c) (idStr lab ((getBucket a lab).length + 1)) = none) :
    (add_new_box a d).2 = some (idStr lab ((getBucket a lab).length + 1))
    ∧ get_box_by_id (add_new_box a d).1 (idStr lab ((getBucket a lab).length + 1))
        = some { x1 := qx1, y1 := qy1, x2 := qx2, y2 := qy2, conf := d.conf,
                 clsIdx := d.clsIdx, label := lab,
                 id := some (idStr lab ((getBucket a lab).length + 1)),
                 original_index := none }
    ∧ (add_new_box a d).1.detections = a.detections ++ [a.heap.length]
    ∧ (remove_box (add_new_box a d).1 (idStr lab ((getBucket a lab).length + 1))).2 = true
    ∧ get_box_by_id
        (remove_box (add_new_box a d).1 (idStr lab ((getBucket a lab).length + 1))).1
        (idStr lab ((getBucket a lab).length + 1)) = none
    ∧ (∀ dm : NewBoxData,
        (dm.x1 = none ∨ dm.y1 = none ∨ dm.x2 = none ∨ dm.y2 = none ∨ dm.label = none) →
        add_new_box a dm = (a, none))
    ∧ (∀ dm : NewBoxData, ∀ lab2, dm.label = some lab2 → lab2 ∉ catList →
        add_new_box a dm = (a, none)) := by
  have hmiss : ¬ (d.x1 = none ∨ d.y1 = none ∨ d.x2 = none ∨ d.y2 = none
      ∨ d.label = none) := by
    simp [h1, h2, h3, h4, h5]
  have hadd : add_new_box a d
      = (setBucket
          { a with
            heap := a.heap
              ++ [mkNewBox d qx1 qy1 qx2 qy2 lab (idStr lab ((getBucket a lab).length + 1))],
            detections := a.detections ++ [a.heap.length] }
          lab
          (dinsert (getBucket a lab) (idStr lab ((getBucket a lab).length + 1))
            a.heap.length),
        some (idStr lab ((getBucket a lab).length + 1))) := by
    unfold add_new_box
    rw [if_neg hmiss, h1, h2, h3, h4, h5]
    simp only [Option.getD_some]
    rw [if_pos hlab]
    rfl
  have hflab := hfresh lab hlab
  have hclab : dcontains (getBucket a lab) (idStr lab ((getBucket a lab).length + 1))
      = false := dlookup_eq_none_iff.1 hflab
  have hdins : dinsert (getBucket a lab) (idStr lab ((getBucket a lab).length + 1))
        a.heap.length
      = getBucket a lab
          ++ [(idStr lab ((getBucket a lab).length + 1), a.heap.length)] := by
    unfold dinsert
    rw [hclab]
    rfl
  have hfind1 : findRefCat (add_new_box a d).1 (idStr lab ((getBucket a lab).length + 1))
      = some (lab, a.heap.length) := by
    rw [hadd]
    refine findRefCat_eq_some hlab ?_ ?_
    · rw [getBucket_setBucket_same hlab, hdins]
      exact dlookup_append_single hflab _
    · intro c hc hne
      rw [getBucket_setBucket_ne hlab hc hne]
      show dlookup (getBucket a c) _ = none
      exact hfresh c hc
  have hheap : (add_new_box a d).1.heap
      = a.heap
          ++ [mkNewBox d qx1 qy1 qx2 qy2 lab (idStr lab ((getBucket a lab).length + 1))] := by
    rw [hadd]
    exact setBucket_heap hlab _ _
  refine ⟨by rw [hadd], ?_, ?_, ?_, ?_, ?_, ?_⟩
  · unfold get_box_by_id
    rw [hfind1]
    show some (hget (add_new_box a d).1.heap a.heap.length) = _
    rw [hheap]
    exact congrArg some (hget_append_length a.heap _)
  · rw [hadd]
    rw [setBucket_detections hlab]
  · unfold remove_box
    rw [hfind1]
  · have hrb : ∀ c', getBucket
        (remove_box (add_new_box a d).1 (idStr lab ((getBucket a lab).length + 1))).1 c'
        = getBucket (setBucket (add_new_box a d).1 lab
            (ddel (getBucket (add_new_box a d).1 lab)
              (idStr lab ((getBucket a lab).length + 1)))) c' := by
      intro c'
      unfold remove_box
      rw [hfind1]
      rfl
    have hnone2 : findRefCat
        (remove_box (add_new_box a d).1 (idStr lab ((getBucket a lab).length + 1))).1
        (idStr lab ((getBucket a lab).length + 1)) = none := by
      refine findRefCat_eq_none ?_
      intro c hc
      rw [hrb c]
      by_cases hcl : c = lab
      · subst hcl
        rw [getBucket_setBucket_same hlab]
        exact dlookup_ddel_self _ _
      · rw [getBucket_setBucket_ne hlab hc hcl, hadd]
        dsimp only
        rw [getBucket_setBucket_ne hlab hc hcl]
        show dlookup (getBucket a c) _ = none
        exact hfresh c hc
    unfold get_box_by_id
    rw [hnone2]
    rfl
  · intro dm hm
    unfold add_new_box
    rw [if_pos hm]
  · intro dm lab2 hm5 hnot
    unfold add_new_box
    by_cases hmp : (dm.x1 = none ∨ dm.y1 = none ∨ dm.x2 = none ∨ dm.y2 = none
        ∨ dm.label = none)
    · rw [if_pos hmp]
    · rw [if_neg hmp, hm5]
      simp only [Option.getD_some]
      rw [if_neg hnot]

theorem thmC9_witness :
    (add_new_box exC7 exC9add).2 = some "label_1"
    ∧ get_box_by_id (add_new_box exC7 exC9add).1 "label_1"
        = some { x1 := 1, y1 := 2, x2 := 3, y2 := 4, conf := none, clsIdx := none,
                 label := "label", id := some "label_1", original_index := none }
    ∧ (remove_box (add_new_box exC7 exC9add).1 "label_1").2 = true
    ∧ get_box_by_id (remove_box (add_new_box exC7 exC9add).1 "label_1").1 "label_1"
        = none := by
  have hid : idStr "label" ((getBucket exC7 "label").length + 1) = "label_1" := by decide
  obtain ⟨w1, w2, w3, w4, w5, _, _⟩ :=
    thmC9_amended exC7 exC9add 1 2 3 4 "label" rfl rfl rfl rfl rfl (by decide) (by decide)
  rw [hid] at w1 w2 w4 w5
  exact ⟨w1, w2, w4, w5⟩
